import Mathlib

/-!
# Verification of the illuTag core

A shallow embedding of the illuTag image-indexing application
(`database_manager.py`, `dictionary_manager.py`, `scanner_engine.py` and the
search wrapper of `app.py`), together with theorems settling the spec claims.

Modelling conventions:

* SQLite state is a `DB` record of `images` / `tags` table rows plus the
  AUTOINCREMENT counters.  A transactional write that hits a `sqlite3.Error`
  rolls back and reports failure; this is modelled by a `fail : Bool` argument
  on the write operations (`save_tags_to_db`, `toggle_favorite_status`):
  when it is `true` the operation returns `false` and leaves the state as it
  was (the rollback).  Read operations return their degraded default (empty
  set / empty list) on such an error; no claim depends on that branch, so the
  reads are modelled as total.
* `os.path.normpath` is an external path operation; it is carried around as
  an abstract function `np : String → String`.
* Python string primitives (`strip`, `lower`, `split`, `replace`,
  `endswith`, substring `in`) are re-implemented over `List Char`, the kernel
  representation of `String`, so that everything evaluates.
* `float` scores are modelled as `ℚ`.  The only claim-relevant arithmetic on
  them is order comparison.
* The progress percentage `int((processed / total) * 100)` is modelled as
  `processed * 100 / total` (natural floor division); the claims only inspect
  the literal `0` / `100` assignments, never the interpolated values.
* Gradio strings (status messages) are modelled by the inductive `SearchMsg`
  with one constructor per distinct message shape built by
  `search_images_wrapper`.
-/

/-! ## Python string primitives -/

/-- Lower-case one character (`str.lower`, restricted to ASCII letters,
which is all the tag vocabulary uses). -/
def lowerChar (c : Char) : Char :=
  if 'A' ≤ c ∧ c ≤ 'Z' then Char.ofNat (c.toNat + 32) else c

/-- `str.lower`. -/
def strLower (s : String) : String :=
  String.mk (s.data.map lowerChar)

/-- `str.strip()`: drop leading and trailing whitespace. -/
def strTrim (s : String) : String :=
  String.mk (((s.data.dropWhile Char.isWhitespace).reverse.dropWhile Char.isWhitespace).reverse)

/-- Does `hay` start with `needle`? (helper for the substring test). -/
def startsWithList : List Char → List Char → Bool
  | _, [] => true
  | [], _ :: _ => false
  | a :: as, b :: bs => (a == b) && startsWithList as bs

/-- Does `hay` contain `needle` as a contiguous sublist? -/
def containsList (hay needle : List Char) : Bool :=
  if startsWithList hay needle then true
  else
    match hay with
    | [] => false
    | _ :: rest => containsList rest needle

/-- The Python substring test `needle in hay`. -/
def containsSub (hay needle : String) : Bool :=
  containsList hay.data needle.data

/-- `str.endswith`. -/
def strEndsWith (s suffix : String) : Bool :=
  startsWithList s.data.reverse suffix.data.reverse

/-- `str.replace(",", " ")` as used on the English search box. -/
def replaceComma (s : String) : String :=
  String.mk (s.data.map (fun c => if c = ',' then ' ' else c))

/-- Helper for `splitWs`: accumulates the current word (reversed). -/
def splitWsAux : List Char → List Char → List String
  | [], acc => if acc.isEmpty then [] else [String.mk acc.reverse]
  | c :: cs, acc =>
      if c.isWhitespace then
        if acc.isEmpty then splitWsAux cs [] else String.mk acc.reverse :: splitWsAux cs []
      else splitWsAux cs (c :: acc)

/-- Python `str.split()` with no arguments: split on whitespace runs,
dropping empty pieces. -/
def splitWs (s : String) : List String :=
  splitWsAux s.data []

/-! ## Index Store (`database_manager.py`) -/

/-- One tag assignment as handed to `save_tags_to_db`: an element of its
`tags : List[Dict]` argument, with keys `tag_name` and `score`. -/
structure Tag where
  tag_name : String
  score : ℚ
deriving DecidableEq

/-- A row of the `images` table. -/
structure ImageRow where
  image_id : Nat
  file_path : String
  date_scanned : String
  is_favorite : Bool
deriving DecidableEq

/-- A row of the `tags` table. -/
structure TagRow where
  tag_id : Nat
  image_id : Nat
  tag_name : String
  score : ℚ
deriving DecidableEq

/-- The SQLite database state: both tables plus the AUTOINCREMENT counters. -/
structure DB where
  images : List ImageRow
  tags : List TagRow
  nextImageId : Nat
  nextTagId : Nat
deriving DecidableEq

/-- Invariants SQLite maintains for this schema: `file_path` is UNIQUE,
`image_id` is an AUTOINCREMENT primary key, and every id ever handed out
(also the ones referenced from `tags`) is below the next fresh id. -/
def DB.WF (db : DB) : Prop :=
  (db.images.map (·.file_path)).Nodup ∧
  (db.images.map (·.image_id)).Nodup ∧
  (∀ r ∈ db.images, r.image_id < db.nextImageId) ∧
  (∀ t ∈ db.tags, t.image_id < db.nextImageId)

instance (db : DB) : Decidable db.WF := by
  unfold DB.WF; infer_instance

/-- `get_all_indexed_file_paths`: the set of normalized stored paths
(`SELECT file_path FROM images`, normalized, collected into a Python set).
The set is modelled as a deduplicated list. -/
def get_all_indexed_file_paths (np : String → String) (db : DB) : List String :=
  (db.images.map (fun r => np r.file_path)).dedup

/-- Step 1 of `save_tags_to_db`: `INSERT INTO images (file_path, date_scanned)
VALUES (?, ?) ON CONFLICT(file_path) DO UPDATE SET date_scanned = excluded.date_scanned`. -/
def upsertImage (db : DB) (P now : String) : DB :=
  if db.images.any (fun r => r.file_path == P) then
    { db with images := db.images.map (fun r =>
        if r.file_path == P then { r with date_scanned := now } else r) }
  else
    { db with images := db.images ++ [⟨db.nextImageId, P, now, false⟩],
              nextImageId := db.nextImageId + 1 }

/-- `save_tags_to_db`: upsert the image row, re-read its `image_id`, delete
all its old tag rows, insert the new ones, in one transaction.  `fail = true`
models a `sqlite3.Error` during the transaction: rollback, report `False`.
The `none` branch of the re-read mirrors `fetchone()[0]` finding no row; it
is unreachable after the upsert. -/
def save_tags_to_db (np : String → String) (now : String) (db : DB)
    (file_path : String) (tags : List Tag) (fail : Bool) : Bool × DB :=
  if fail then (false, db)
  else
    let P := np file_path
    let db1 : DB := upsertImage db P now
    match db1.images.find? (fun r => r.file_path == P) with
    | none => (false, db)
    | some row =>
        let keep := db1.tags.filter (fun t => t.image_id != row.image_id)
        let newRows := tags.enum.map (fun it =>
          TagRow.mk (db1.nextTagId + it.1) row.image_id it.2.tag_name it.2.score)
        (true, { db1 with tags := keep ++ newRows, nextTagId := db1.nextTagId + tags.length })

/-- The tag assignments currently stored for a (normalized) path: the tag
rows of the image row carrying that `file_path`. -/
def tagsForPath (db : DB) (path : String) : List Tag :=
  match db.images.find? (fun r => r.file_path == path) with
  | some r => (db.tags.filter (fun t => t.image_id == r.image_id)).map (fun t => ⟨t.tag_name, t.score⟩)
  | none => []

/-- `get_all_indexed_tags`: `SELECT DISTINCT tag_name FROM tags`. -/
def get_all_indexed_tags (db : DB) : List String :=
  (db.tags.map (·.tag_name)).dedup

/-- Insert into a list sorted by `le` (keeps existing order among `le`-ties). -/
def insertSorted {α : Type} (le : α → α → Bool) (a : α) : List α → List α
  | [] => [a]
  | b :: bs => if le b a then b :: insertSorted le a bs else a :: b :: bs

/-- Insertion sort, modelling the SQL `ORDER BY` clauses. -/
def insertionSort {α : Type} (le : α → α → Bool) : List α → List α
  | [] => []
  | a :: as => insertSorted le a (insertionSort le as)

/-- The tag rows of one image, ordered by descending score
(`ORDER BY ..., T1.score DESC`). -/
def tagRowsFor (db : DB) (imageId : Nat) : List TagRow :=
  insertionSort (fun a b => b.score ≤ a.score) (db.tags.filter (fun t => t.image_id == imageId))

/-- One element of the `get_all_indexed_images` output: an image row grouped
with all its tag rows. -/
structure ImageEntry where
  image_id : Nat
  file_path : String
  is_favorite : Bool
  tags : List Tag
deriving DecidableEq

/-- `get_all_indexed_images`: `tags INNER JOIN images ORDER BY image_id,
score DESC`, regrouped per image.  Images without any tag row produce no
join rows and therefore no entry. -/
def get_all_indexed_images (db : DB) : List ImageEntry :=
  (insertionSort (fun a b => a.image_id ≤ b.image_id) db.images).filterMap (fun r =>
    let ts := tagRowsFor db r.image_id
    if ts.isEmpty then none
    else some ⟨r.image_id, r.file_path, r.is_favorite, ts.map (fun t => ⟨t.tag_name, t.score⟩)⟩)

/-- `toggle_favorite_status`: `UPDATE images SET is_favorite = 1 - is_favorite
WHERE image_id = ?`, then re-read the new state; `False` when the id does not
exist (the `fetchone()` returned nothing).  `fail = true` models a
`sqlite3.Error`: rollback, report `False`. -/
def toggle_favorite_status (db : DB) (imageId : Nat) (fail : Bool) : Bool × DB :=
  if fail then (false, db)
  else
    let db1 : DB := { db with images := db.images.map (fun r =>
      if r.image_id == imageId then { r with is_favorite := !r.is_favorite } else r) }
    match db1.images.find? (fun r => r.image_id == imageId) with
    | some r => (r.is_favorite, db1)
    | none => (false, db1)

/-! ## Tag Dictionary Resolver (`dictionary_manager.py`) -/

/-- Python `dict` as an insertion-ordered association list: assignment
overwrites in place, new keys append. -/
def dictInsert (m : List (String × String)) (k v : String) : List (String × String) :=
  if m.any (fun e => e.1 == k) then m.map (fun e => if e.1 == k then (k, v) else e)
  else m ++ [(k, v)]

/-- Python `dict.get`. -/
def dictGet (m : List (String × String)) (k : String) : Option String :=
  (m.find? (fun e => e.1 == k)).map (·.2)

/-- The resolver state: the two direction maps plus the key list used for
fuzzy search (`list(_cn_to_en_tag.keys())`, in insertion order). -/
structure DictionaryManager where
  cn_to_en : List (String × String)
  en_to_cn : List (String × String)
  all_cn_tags : List String
deriving DecidableEq

/-- The pandas cleaning step of `_load_dictionary`: keep rows where both the
`tag` (column C) and `right_tag_cn` (column D) cells are present, strip both,
lower-case the tag.  A raw row is `(tag cell, right_tag_cn cell)`. -/
def cleanRows (raw : List (Option String × Option String)) : List (String × String) :=
  raw.filterMap (fun r =>
    match r.1, r.2 with
    | some tg, some cn => some (strLower (strTrim tg), strTrim cn)
    | _, _ => none)

/-- `_load_dictionary`: fold the cleaned rows into the two maps, later rows
overwriting earlier ones on duplicate keys. -/
def load_dictionary (raw : List (Option String × Option String)) : DictionaryManager :=
  let rows := cleanRows raw
  let cn2en := rows.foldl (fun m e => dictInsert m e.2 e.1) []
  let en2cn := rows.foldl (fun m e => dictInsert m e.1 e.2) []
  { cn_to_en := cn2en, en_to_cn := en2cn, all_cn_tags := cn2en.map (·.1) }

/-- `fuzzy_lookup_suggestions`: all exact CN tags containing the (stripped)
input as a substring, optionally filtered to those whose EN tag is in
`allowed`, capped at 200. -/
def fuzzy_lookup_suggestions (d : DictionaryManager) (cnTerm : String)
    (allowed : Option (List String)) : List String :=
  let p := strTrim cnTerm
  if p == "" then []
  else
    let raw := d.all_cn_tags.filter (fun cn => containsSub cn p)
    match allowed with
    | none => raw.take 200
    | some al =>
        (raw.filter (fun cn =>
          match dictGet d.cn_to_en cn with
          | some en => en != "" && al.contains en
          | none => false)).take 200

/-- `get_search_tags_from_cn_list`: map each exact CN term through the
dictionary and collect the (truthy) EN tags into a set, modelled as an
insertion-ordered duplicate-free list. -/
def get_search_tags_from_cn_list (d : DictionaryManager) (cnTerms : List String) : List String :=
  cnTerms.foldl (fun acc cn =>
    match dictGet d.cn_to_en cn with
    | some en => if en != "" && !acc.contains en then acc ++ [en] else acc
    | none => acc) []

/-- `lookup_en_to_cn`. -/
def lookup_en_to_cn (d : DictionaryManager) (en : String) : Option String :=
  dictGet d.en_to_cn en

/-- `is_cn_tag`: membership in the CN→EN key space. -/
def is_cn_tag (d : DictionaryManager) (cn : String) : Bool :=
  (dictGet d.cn_to_en cn).isSome

/-! ## Scan Controller (`scanner_engine.py`) -/

/-- The `ScanEngine.status` record. -/
structure ScanStatus where
  is_scanning : Bool
  total_files : Nat
  files_processed : Nat
  progress_percent : Nat
  folder : String
deriving DecidableEq

/-- The supported-extension filter `file.lower().endswith(SUPPORTED_EXTENSIONS)`. -/
def supportedFile (name : String) : Bool :=
  let l := strLower name
  strEndsWith l ".jpg" || strEndsWith l ".jpeg" || strEndsWith l ".png" || strEndsWith l ".gif"

/-- `os.path.join(root, file)` (separator abstracted to `/`). -/
def joinPath (root file : String) : String :=
  root ++ "/" ++ file

/-- The first walk pass: every supported file discovered under the folder, in
enumeration order, normalized.  `walk` is the `os.walk` output flattened to
`(root, file)` pairs. -/
def all_files_in_folder (np : String → String) (walk : List (String × String)) : List String :=
  (walk.filter (fun rf => supportedFile rf.2)).map (fun rf => np (joinPath rf.1 rf.2))

/-- The files selected for processing: a discovered file is skipped exactly
when the scan is not forced and its normalized path is already indexed. -/
def files_to_scan (np : String → String) (walk : List (String × String))
    (force : Bool) (indexed : List String) : List String :=
  (all_files_in_folder np walk).filter (fun p => !(!force && indexed.contains p))

/-- The per-file scan loop: tag the file (`tagger f = none` models a raised
exception, which is caught), save non-empty tag lists through
`save_tags_to_db`, then increment `files_processed` and recompute the
percentage under the lock.  Results: the status snapshots after each file,
the final database, and the paths passed to `process_image`, in order. -/
def scanLoop (np : String → String) (tagger : String → Option (List Tag))
    (failSave : String → Bool) (now : String) (folder : String) (total : Nat) :
    List String → Nat → DB → List ScanStatus × DB × List String
  | [], _, db => ([], db, [])
  | f :: rest, doneCount, db =>
      let db1 :=
        match tagger f with
        | none => db
        | some tagsList =>
            if !tagsList.isEmpty then (save_tags_to_db np now db f tagsList (failSave f)).2 else db
      let processed := doneCount + 1
      let s : ScanStatus :=
        ⟨true, total, processed, if total > 0 then processed * 100 / total else 100, folder⟩
      let r := scanLoop np tagger failSave now folder total rest processed db1
      (s :: r.1, r.2.1, f :: r.2.2)

/-- `ScanEngine.start_scan`.  Returns the sequence of status values
observable through `get_status` (one entry per lock-guarded mutation, in
order), the final database, and the list of paths passed to
`process_image`.  `isDir` is `os.path.isdir(folder)`; `s0` is the status
when the call starts (a concurrent-start request while `s0.is_scanning`
is a no-op). -/
def start_scan (np : String → String) (tagger : String → Option (List Tag))
    (failSave : String → Bool) (now : String) (folder : String) (isDir : Bool)
    (walk : List (String × String)) (force : Bool) (db : DB) (s0 : ScanStatus) :
    List ScanStatus × DB × List String :=
  if s0.is_scanning then ([], db, [])
  else
    let s1 : ScanStatus := ⟨true, 0, 0, 0, folder⟩
    if !isDir then ([s1, ⟨false, 0, 0, 0, folder⟩], db, [])
    else
      let indexed := if force then [] else get_all_indexed_file_paths np db
      let total := (all_files_in_folder np walk).length
      let toScan := files_to_scan np walk force indexed
      let seed := if force then 0 else indexed.length
      let s2 : ScanStatus := ⟨true, total, seed, if total > 0 then seed * 100 / total else 0, folder⟩
      let r := scanLoop np tagger failSave now folder total toScan seed db
      let sF : ScanStatus :=
        if total > 0 then ⟨false, total, total, 100, folder⟩ else ⟨false, total, 0, 0, folder⟩
      (s1 :: s2 :: r.1 ++ [sF], r.2.1, r.2.2)

/-! ## Retrieval Engine (`app.py`, `search_images_wrapper`) -/

/-- The wrapper inputs (field names shortened from
`cn_partial_input`, `cn_selected_tag`, `english_input`, `file_name_input`,
`min_score`, `max_score`, `show_favorites`). -/
structure SearchCriteria where
  cnInput : String
  cnSelected : Option String
  enInput : String
  fileInput : String
  minScore : ℚ
  maxScore : ℚ
  showFavorites : Bool
deriving DecidableEq

/-- The distinct result messages `search_images_wrapper` can build:
the definite "no tags found" message, the empty-database message, the
show-all summary and the criteria summary. -/
inductive SearchMsg where
  | noTagsFound (cnInput : String)
  | emptyDb
  | showAll (count : Nat)
  | criteria (count : Nat)
deriving DecidableEq

/-- One gallery entry: the image path and the tag list rendered into its
caption (the `(file_path, title)` pair, with the title's tag lines kept as
structured data instead of formatted text). -/
structure ResultItem where
  path : String
  shown : List Tag
deriving DecidableEq

/-- The score-range test `min_score <= score <= max_score`. -/
def tagInRange (c : SearchCriteria) (t : Tag) : Bool :=
  c.minScore ≤ t.score && t.score ≤ c.maxScore

/-- The matched-tag loop: for each tag assignment within the score range,
an exact CN-resolved match wins, else the first containing fuzzy EN term;
each tag contributes at most one match. -/
def matchedTags (c : SearchCriteria) (cnTags enTerms : List String) : List Tag → List Tag
  | [] => []
  | t :: ts =>
      if !(tagInRange c t) then matchedTags c cnTags enTerms ts
      else if cnTags.contains t.tag_name then t :: matchedTags c cnTags enTerms ts
      else if enTerms.any (fun term => containsSub t.tag_name term) then
        t :: matchedTags c cnTags enTerms ts
      else matchedTags c cnTags enTerms ts

/-- The selected CN tag, with Python truthiness (`None` and `""` are falsy). -/
def selectedVal (c : SearchCriteria) : String :=
  c.cnSelected.getD ""

/-- `user_intended_search`: did any of the five inputs carry content? -/
def userIntended (c : SearchCriteria) : Bool :=
  strTrim c.cnInput != "" || strLower (strTrim c.enInput) != "" || selectedVal c != "" ||
    strLower (strTrim c.fileInput) != "" || c.showFavorites

/-- The normalized filename filter. -/
def fileNameQuery (c : SearchCriteria) : String :=
  strLower (strTrim c.fileInput)

/-- `cn_terms_to_search`: the selected exact tag if any, else the fuzzy
suggestions for the partial input (restricted to indexed EN tags), else none. -/
def cnTermsToSearch (dict : DictionaryManager) (db : DB) (c : SearchCriteria) : List String :=
  if selectedVal c != "" then [selectedVal c]
  else if strTrim c.cnInput != "" then
    fuzzy_lookup_suggestions dict (strTrim c.cnInput) (some (get_all_indexed_tags db))
  else []

/-- `cn_search_tags`: the resolved EN tag set. -/
def resolvedTags (dict : DictionaryManager) (db : DB) (c : SearchCriteria) : List String :=
  get_search_tags_from_cn_list dict (cnTermsToSearch dict db c)

/-- `en_fuzzy_terms`: the English box split into lowercase tokens on
whitespace and commas. -/
def fuzzyTerms (c : SearchCriteria) : List String :=
  let en := strLower (strTrim c.enInput)
  if en != "" then ((splitWs (replaceComma en)).map strTrim).filter (fun t => t != "") else []

/-- The per-image filter body of the wrapper's loop: favorites filter,
filename filter, then the tag/score filter with its three branches
(show-all, filename/favorites-only, tag match). -/
def filterImage (c : SearchCriteria) (cnTags enTerms : List String) (uInt : Bool)
    (item : ImageEntry) : Option ResultItem :=
  let fn := fileNameQuery c
  if c.showFavorites && !item.is_favorite then none
  else if fn != "" && !(containsSub (strLower item.file_path) fn) then none
  else if cnTags.isEmpty && enTerms.isEmpty then
    if !uInt then
      let inR := item.tags.filter (tagInRange c)
      if inR.isEmpty then none else some ⟨item.file_path, inR.take 5⟩
    else some ⟨item.file_path, item.tags.take 5⟩
  else
    let m := matchedTags c cnTags enTerms item.tags
    if m.isEmpty then none else some ⟨item.file_path, m⟩

/-- `search_images_wrapper`: resolve the criteria, detect the definite-empty
case, otherwise filter the full corpus. -/
def search_images_wrapper (dict : DictionaryManager) (db : DB) (c : SearchCriteria) :
    List ResultItem × SearchMsg :=
  let cnTags := resolvedTags dict db c
  let enTerms := fuzzyTerms c
  if userIntended c && cnTags.isEmpty && enTerms.isEmpty && fileNameQuery c == "" &&
      !c.showFavorites then
    ([], SearchMsg.noTagsFound (strTrim c.cnInput))
  else
    let allImages := get_all_indexed_images db
    if allImages.isEmpty then ([], SearchMsg.emptyDb)
    else
      let res := allImages.filterMap (filterImage c cnTags enTerms (userIntended c))
      (res, if userIntended c then SearchMsg.criteria res.length else SearchMsg.showAll res.length)

/-! ## Concrete sample data used by witnesses and counterexamples -/

/-- A tagger whose `process_image` always raises (the file is skipped). -/
def tgNone : String → Option (List Tag) := fun _ => none

/-- A persistence layer that never fails. -/
def fsNone : String → Bool := fun _ => false

/-- The idle status a freshly constructed `ScanEngine` carries. -/
def idleStatus : ScanStatus := ⟨false, 0, 0, 0, ""⟩

/-- The terminal status left behind by some earlier completed scan. -/
def prevStatus : ScanStatus := ⟨false, 5, 5, 100, "old"⟩

/-- An empty database. -/
def emptyDb : DB := ⟨[], [], 1, 1⟩

/-- A database holding one indexed image `a` (a stale entry: `a` is not in
the folder scanned through `walkB`). -/
def dbStale : DB := ⟨[⟨1, "a", "t0", false⟩], [⟨1, 1, "cat", 9⟩], 2, 2⟩

/-- A folder walk discovering the single new file `r/b.jpg`. -/
def walkB : List (String × String) := [("r", "b.jpg")]

/-- A folder walk discovering `r/a.jpg` and `r/b.jpg`. -/
def walkAB : List (String × String) := [("r", "a.jpg"), ("r", "b.jpg")]

/-- A database where the already-indexed image is among the files of
`walkAB`. -/
def dbIndexedA : DB := ⟨[⟨1, "r/a.jpg", "t0", false⟩], [⟨1, 1, "cat", 9⟩], 2, 2⟩

/-- A database holding one image row with no tag assignments at all. -/
def dbTagless : DB := ⟨[⟨1, "a", "t0", false⟩], [], 2, 1⟩

/-- A database with a favourited image whose only tag has score 0. -/
def dbFav : DB := ⟨[⟨1, "p", "t0", true⟩], [⟨1, 1, "cat", 0⟩], 2, 2⟩

/-- Raw dictionary rows with a duplicated CN key `x`. -/
def rawDup : List (Option String × Option String) := [(some "a", some "x"), (some "b", some "x")]

/-- Raw dictionary rows for the single entry (`mao` → `cat`). -/
def rawCat : List (Option String × Option String) := [(some "cat", some "mao")]

/-- The loaded single-entry dictionary. -/
def dict0 : DictionaryManager := load_dictionary rawCat

/-- A favorites-only query with score range [1, 1]. -/
def cFav : SearchCriteria := ⟨"", none, "", "", 1, 1, true⟩

/-- A query whose CN input resolves to nothing and whose other fields are
empty. -/
def cNoHit : SearchCriteria := ⟨"zzz", none, "", "", 0, 1, false⟩

/-- The completely empty query with score range [0, 1]. -/
def cShowAll : SearchCriteria := ⟨"", none, "", "", 0, 1, false⟩

/-! ## General lemmas -/

theorem find_path_upsert (images : List ImageRow) (P now : String) :
    (images.map (fun r => if r.file_path == P then { r with date_scanned := now } else r)).find?
        (fun r => r.file_path == P)
      = (images.find? (fun r => r.file_path == P)).map
          (fun r => { r with date_scanned := now }) := by
  induction images with
  | nil => rfl
  | cons a as ih =>
      simp only [List.map_cons, List.find?_cons]
      by_cases h : a.file_path = P
      · have hb : ((if a.file_path == P then ({ a with date_scanned := now } : ImageRow)
            else a).file_path == P) = true := by simp [h]
        have hb2 : (a.file_path == P) = true := by simp [h]
        rw [hb, hb2]
        simp [h]
      · have hb : ((if a.file_path == P then ({ a with date_scanned := now } : ImageRow)
            else a).file_path == P) = false := by simp [h]
        have hb2 : (a.file_path == P) = false := by simp [h]
        rw [hb, hb2]
        exact ih

theorem upsertImage_find (db : DB) (P now : String) :
    ∃ row, (upsertImage db P now).images.find? (fun r => r.file_path == P) = some row := by
  unfold upsertImage
  by_cases h : db.images.any (fun r => r.file_path == P)
  · simp only [if_pos h]
    have hs : ((db.images.find? (fun r => r.file_path == P)).isSome) = true := by
      rw [List.find?_isSome]
      exact List.any_eq_true.1 h
    obtain ⟨r0, hr0⟩ := Option.isSome_iff_exists.1 hs
    exact ⟨_, by rw [find_path_upsert, hr0]; rfl⟩
  · simp only [if_neg h]
    have hn : db.images.find? (fun r => r.file_path == P) = none := by
      rw [List.find?_eq_none]
      intro x hx hpx
      exact h (List.any_eq_true.2 ⟨x, hx, hpx⟩)
    exact ⟨⟨db.nextImageId, P, now, false⟩, by rw [List.find?_append, hn]; simp [List.find?_cons]⟩

theorem scanLoop_paths (np : String → String) (tg : String → Option (List Tag))
    (fs : String → Bool) (now folder : String) (total : Nat) :
    ∀ (files : List String) (k : Nat) (db : DB),
      (scanLoop np tg fs now folder total files k db).2.2 = files := by
  intro files
  induction files with
  | nil => intro k db; rfl
  | cons f rest ih => intro k db; simp [scanLoop, ih]

/-! ## Claim C2 -/

/-- C2: a `saveTags` call that reports success leaves exactly the given tag
assignments stored for the path (old ones deleted, new ones inserted); a call
that fails rolls the transaction back and leaves the database unchanged. -/
theorem claim_C2 (np : String → String) (now : String) (db : DB) (p : String) (T : List Tag) :
    (save_tags_to_db np now db p T false).1 = true
  ∧ tagsForPath (save_tags_to_db np now db p T false).2 (np p) = T
  ∧ save_tags_to_db np now db p T true = (false, db) := by
  obtain ⟨row, hrow⟩ := upsertImage_find db (np p) now
  refine ⟨?_, ?_, rfl⟩
  · simp only [save_tags_to_db, Bool.false_eq_true, if_false, hrow]
  · simp only [save_tags_to_db, Bool.false_eq_true, if_false, hrow, tagsForPath]
    rw [List.filter_append]
    have h1 : ((upsertImage db (np p) now).tags.filter
        (fun t => t.image_id != row.image_id)).filter
          (fun t => t.image_id == row.image_id) = [] := by
      rw [List.filter_eq_nil_iff]
      intro a ha
      rw [List.mem_filter] at ha
      have := ha.2
      simp only [bne_iff_ne, ne_eq] at this
      simp [this]
    have h2 : (T.enum.map (fun it =>
        TagRow.mk ((upsertImage db (np p) now).nextTagId + it.1) row.image_id
          it.2.tag_name it.2.score)).filter (fun t => t.image_id == row.image_id)
        = T.enum.map (fun it =>
            TagRow.mk ((upsertImage db (np p) now).nextTagId + it.1) row.image_id
              it.2.tag_name it.2.score) := by
      rw [List.filter_eq_self]
      intro a ha
      obtain ⟨it, hit, rfl⟩ := List.mem_map.1 ha
      simp
    rw [h1, h2, List.nil_append, List.map_map]
    have h3 : ((fun t : TagRow => (⟨t.tag_name, t.score⟩ : Tag)) ∘ (fun it : Nat × Tag =>
        TagRow.mk ((upsertImage db (np p) now).nextTagId + it.1) row.image_id
          it.2.tag_name it.2.score)) = Prod.snd := by
      funext it; rfl
    rw [h3, List.enum_map_snd]

/-! ## Claim C1 -/

/-- C1: during a non-forced scan, no path of the `listIndexedPaths()` set
taken at scan start is ever passed to `process_image`, and every path that
is passed is a discovered file outside that set. -/
theorem claim_C1 (np : String → String) (tagger : String → Option (List Tag))
    (failSave : String → Bool) (now folder : String) (isDir : Bool)
    (walk : List (String × String)) (db : DB) (s0 : ScanStatus) :
    (∀ pa ∈ get_all_indexed_file_paths np db,
        pa ∉ (start_scan np tagger failSave now folder isDir walk false db s0).2.2)
  ∧ (∀ q ∈ (start_scan np tagger failSave now folder isDir walk false db s0).2.2,
        q ∈ all_files_in_folder np walk ∧ q ∉ get_all_indexed_file_paths np db) := by
  have hps : (start_scan np tagger failSave now folder isDir walk false db s0).2.2 = []
      ∨ (start_scan np tagger failSave now folder isDir walk false db s0).2.2
          = files_to_scan np walk false (get_all_indexed_file_paths np db) := by
    unfold start_scan
    by_cases h0 : s0.is_scanning
    · left; simp [h0]
    · by_cases hd : isDir
      · right; simp [h0, hd, scanLoop_paths]
      · left; simp [h0, hd]
  constructor
  · intro pa hpa hmem
    rcases hps with h | h
    · rw [h] at hmem
      exact List.not_mem_nil pa hmem
    · rw [h] at hmem
      unfold files_to_scan at hmem
      rw [List.mem_filter] at hmem
      simp at hmem
      exact hmem.2 hpa
  · intro q hmem
    rcases hps with h | h
    · rw [h] at hmem
      exact absurd hmem (List.not_mem_nil q)
    · rw [h] at hmem
      unfold files_to_scan at hmem
      rw [List.mem_filter] at hmem
      simp at hmem
      exact hmem

/-- C1 witness: on a concrete scan, the indexed path `r/a.jpg` is not
processed while the new file `r/b.jpg` is discovered and unindexed. -/
theorem claim_C1_witness :
    ("r/a.jpg" ∉ (start_scan id tgNone fsNone "t" "f" true walkAB false dbIndexedA idleStatus).2.2)
  ∧ ("r/b.jpg" ∈ all_files_in_folder id walkAB
      ∧ "r/b.jpg" ∉ get_all_indexed_file_paths id dbIndexedA) :=
  ⟨(claim_C1 id tgNone fsNone "t" "f" true walkAB dbIndexedA idleStatus).1 "r/a.jpg" (by decide),
   (claim_C1 id tgNone fsNone "t" "f" true walkAB dbIndexedA idleStatus).2 "r/b.jpg" (by decide)⟩

/-! ## Claim C8 -/

/-- C8 counterexample: calling `start_scan` on an invalid folder does pass
through the `Scanning` state and does change the status record (the counters
of the previous terminal status are reset and the folder is overwritten),
contradicting the claim that it returns without entering `Scanning` and
without any partial state change. -/
theorem claim_C8_counterexample :
    ((start_scan id tgNone fsNone "t" "f" false [] false emptyDb prevStatus).1.any
        (·.is_scanning)) = true
  ∧ ((start_scan id tgNone fsNone "t" "f" false [] false emptyDb prevStatus).1.getLast?
        = some ⟨false, 0, 0, 0, "f"⟩)
  ∧ (⟨false, 0, 0, 0, "f"⟩ : ScanStatus) ≠ prevStatus := by
  decide

/-- C8 (amended): on an invalid folder, `start_scan` reports an error and
returns without processing any file and without touching the database; it
transiently enters `Scanning` with zeroed counters and the new folder, and
ends `Idle` with the counters still zero. -/
theorem claim_C8_amended (np : String → String) (tagger : String → Option (List Tag))
    (failSave : String → Bool) (now folder : String) (walk : List (String × String))
    (force : Bool) (db : DB) (s0 : ScanStatus) (h0 : s0.is_scanning = false) :
    start_scan np tagger failSave now folder false walk force db s0
      = ([⟨true, 0, 0, 0, folder⟩, ⟨false, 0, 0, 0, folder⟩], db, []) := by
  unfold start_scan
  simp [h0]

/-- C8 witness: the amended statement evaluated on a concrete invalid-folder
call. -/
theorem claim_C8_witness :
    start_scan id tgNone fsNone "t" "f" false [] false emptyDb idleStatus
      = ([⟨true, 0, 0, 0, "f"⟩, ⟨false, 0, 0, 0, "f"⟩], emptyDb, []) :=
  claim_C8_amended id tgNone fsNone "t" "f" [] false emptyDb idleStatus rfl

/-! ## Claim C3 -/

/-- C3 counterexample: with one stale indexed path (`a`, not in the folder)
and one new discovered file, the status set after enumeration carries
`files_processed = 1`, while the number of discovered files that are already
indexed is `0` — the claim's initialization value. -/
theorem claim_C3_counterexample :
    (((start_scan id tgNone fsNone "t" "f" true walkB false dbStale idleStatus).1.get? 1).map
        (·.files_processed)) = some 1
  ∧ ((all_files_in_folder id walkB).filter
        (fun pa => (get_all_indexed_file_paths id dbStale).contains pa)).length = 0 := by
  decide

/-- C3 (amended): after enumeration, `total_files` is the number of all
discovered supported files, and `files_processed` is initialized to the size
of the full `listIndexedPaths()` set (not just its discovered part), or `0`
on a forced scan. -/
theorem claim_C3_amended (np : String → String) (tagger : String → Option (List Tag))
    (failSave : String → Bool) (now folder : String) (walk : List (String × String))
    (force : Bool) (db : DB) (s0 : ScanStatus) (h0 : s0.is_scanning = false) :
    ∀ s, ((start_scan np tagger failSave now folder true walk force db s0).1.get? 1 = some s) →
      s.total_files = (all_files_in_folder np walk).length
    ∧ s.files_processed = (if force then 0 else (get_all_indexed_file_paths np db).length) := by
  intro s hs
  unfold start_scan at hs
  simp only [h0, Bool.false_eq_true, if_false, Bool.not_true, List.cons_append,
    List.get?_cons_succ, List.get?_cons_zero, Option.some.injEq] at hs
  subst hs
  by_cases hf : force <;> simp [hf]

/-- C3 witness: the amended statement evaluated on the concrete stale-index
scan. -/
theorem claim_C3_witness :
    ((⟨true, 1, 1, 100, "f"⟩ : ScanStatus).total_files = (all_files_in_folder id walkB).length)
  ∧ ((⟨true, 1, 1, 100, "f"⟩ : ScanStatus).files_processed
      = (if false then 0 else (get_all_indexed_file_paths id dbStale).length)) :=
  claim_C3_amended id tgNone fsNone "t" "f" walkB false dbStale idleStatus rfl
    ⟨true, 1, 1, 100, "f"⟩ (by decide)

/-! ## Lemmas about sorting, maps and `find?` -/

theorem find?_map_pres {α : Type} (f : α → α) (p : α → Bool) (l : List α)
    (hp : ∀ a, p (f a) = p a) :
    (l.map f).find? p = (l.find? p).map f := by
  induction l with
  | nil => rfl
  | cons a as ih =>
      simp only [List.map_cons, List.find?_cons, hp a]
      by_cases h : p a = true
      · simp [h]
      · rw [Bool.not_eq_true] at h
        simp [h, ih]

theorem mem_insertSorted {α : Type} (le : α → α → Bool) (a x : α) (l : List α) :
    x ∈ insertSorted le a l ↔ x = a ∨ x ∈ l := by
  induction l with
  | nil => simp [insertSorted]
  | cons b bs ih =>
      by_cases h : le b a
      all_goals simp [insertSorted, h, ih]
      all_goals tauto

theorem mem_insertionSort {α : Type} (le : α → α → Bool) (x : α) (l : List α) :
    x ∈ insertionSort le l ↔ x ∈ l := by
  induction l with
  | nil => simp [insertionSort]
  | cons b bs ih => simp [insertionSort, mem_insertSorted, ih]

theorem length_insertSorted {α : Type} (le : α → α → Bool) (a : α) (l : List α) :
    (insertSorted le a l).length = l.length + 1 := by
  induction l with
  | nil => rfl
  | cons b bs ih => by_cases h : le b a <;> simp [insertSorted, h, ih]

theorem length_insertionSort {α : Type} (le : α → α → Bool) (l : List α) :
    (insertionSort le l).length = l.length := by
  induction l with
  | nil => rfl
  | cons b bs ih => simp [insertionSort, length_insertSorted, ih]

theorem eq_of_nodup_map {α β : Type} (f : α → β) (l : List α)
    (h : (l.map f).Nodup) {a b : α} (ha : a ∈ l) (hb : b ∈ l) (hf : f a = f b) : a = b := by
  induction l with
  | nil => cases ha
  | cons c cs ih =>
      rw [List.map_cons, List.nodup_cons] at h
      rcases List.mem_cons.1 ha with rfl | ha'
      · rcases List.mem_cons.1 hb with rfl | hb'
        · rfl
        · exact absurd (by rw [hf]; exact List.mem_map_of_mem f hb') h.1
      · rcases List.mem_cons.1 hb with rfl | hb'
        · exact absurd (by rw [← hf]; exact List.mem_map_of_mem f ha') h.1
        · exact ih h.2 ha' hb'

/-! ## Lemmas about the Index Store operations -/

theorem toggle_result (db : DB) (imageId : Nat) :
    (toggle_favorite_status db imageId false).2
      = { db with images := db.images.map (fun r =>
          if r.image_id == imageId then { r with is_favorite := !r.is_favorite } else r) } := by
  unfold toggle_favorite_status
  dsimp only
  cases hf : (db.images.map (fun r =>
      if r.image_id == imageId then { r with is_favorite := !r.is_favorite } else r)).find?
        (fun r => r.image_id == imageId) with
  | none => rfl
  | some r => rfl

theorem entry_of_mem (db : DB) (r : ImageRow) (hr : r ∈ db.images)
    (htag : db.tags.any (fun t => t.image_id == r.image_id) = true) :
    (⟨r.image_id, r.file_path, r.is_favorite,
        (tagRowsFor db r.image_id).map (fun t => ⟨t.tag_name, t.score⟩)⟩ : ImageEntry)
      ∈ get_all_indexed_images db := by
  have hsort : r ∈ insertionSort (fun a b => a.image_id ≤ b.image_id) db.images :=
    (mem_insertionSort _ _ _).2 hr
  have hne : (tagRowsFor db r.image_id).isEmpty = false := by
    obtain ⟨t, ht, hpt⟩ := List.any_eq_true.1 htag
    have hmem : t ∈ db.tags.filter (fun t2 => t2.image_id == r.image_id) :=
      List.mem_filter.2 ⟨ht, hpt⟩
    have hlen : 0 < (db.tags.filter (fun t2 => t2.image_id == r.image_id)).length :=
      List.length_pos.2 (List.ne_nil_of_mem hmem)
    cases hE : (tagRowsFor db r.image_id).isEmpty
    · rfl
    · exfalso
      have h0 := List.isEmpty_iff.1 hE
      have hlen2 : (tagRowsFor db r.image_id).length = 0 := by rw [h0]; rfl
      unfold tagRowsFor at hlen2
      rw [length_insertionSort] at hlen2
      omega
  unfold get_all_indexed_images
  exact List.mem_filterMap.2 ⟨r, hsort, by simp [hne]⟩

/-! ## Claim C9 -/

/-- C9 counterexample: toggling an image id that is present but has no tag
assignments flips the flag and returns the new state, but `listAllImages()`
shows no entry for it either before or after, so the change is not visible
in the next `listAllImages()` call as the claim requires. -/
theorem claim_C9_counterexample :
    (toggle_favorite_status dbTagless 1 false).1 = true
  ∧ get_all_indexed_images dbTagless = []
  ∧ get_all_indexed_images (toggle_favorite_status dbTagless 1 false).2 = [] := by
  decide

/-- C9 (amended): toggling a known image id flips that image's favorite flag
exactly once, returns the new state, and — provided the image has at least
one tag assignment — the change is visible in the next `listAllImages()`
call; toggling an unknown id returns `false` and changes nothing. -/
theorem claim_C9_amended (db : DB) (imageId : Nat) (hwf : db.WF) :
    (∀ r ∈ db.images, r.image_id = imageId →
        (toggle_favorite_status db imageId false).1 = !r.is_favorite
      ∧ (toggle_favorite_status db imageId false).2.images
          = db.images.map (fun r2 =>
              if r2.image_id == imageId then { r2 with is_favorite := !r2.is_favorite } else r2)
      ∧ (toggle_favorite_status db imageId false).2.tags = db.tags
      ∧ (db.tags.any (fun t => t.image_id == imageId) = true →
          ∃ e ∈ get_all_indexed_images (toggle_favorite_status db imageId false).2,
            e.image_id = imageId ∧ e.is_favorite = !r.is_favorite))
  ∧ ((∀ r ∈ db.images, r.image_id ≠ imageId) →
      toggle_favorite_status db imageId false = (false, db)) := by
  constructor
  · intro r hr hid
    have hfind : db.images.find? (fun r2 => r2.image_id == imageId) = some r := by
      cases hf : db.images.find? (fun r2 => r2.image_id == imageId) with
      | none =>
          rw [List.find?_eq_none] at hf
          exact absurd (by simp [hid]) (hf r hr)
      | some r0 =>
          have hmem := List.mem_of_find?_eq_some hf
          have hpred := List.find?_some hf
          have hr0 : r0 = r := by
            apply eq_of_nodup_map (fun x => x.image_id) db.images hwf.2.1 hmem hr
            simp only [beq_iff_eq] at hpred
            rw [hpred, hid]
          rw [hr0]
    have hfst : (toggle_favorite_status db imageId false).1 = !r.is_favorite := by
      unfold toggle_favorite_status
      dsimp only
      rw [find?_map_pres _ _ _ (by
        intro a
        by_cases ha : a.image_id = imageId <;> simp [ha]), hfind]
      simp [hid]
    have hsnd := toggle_result db imageId
    refine ⟨hfst, by rw [hsnd], by rw [hsnd], ?_⟩
    intro htag
    have hr' : ({ r with is_favorite := !r.is_favorite } : ImageRow)
        ∈ (toggle_favorite_status db imageId false).2.images := by
      rw [hsnd]
      exact List.mem_map.2 ⟨r, hr, by simp [hid]⟩
    have htag' : (toggle_favorite_status db imageId false).2.tags.any
        (fun t => t.image_id == ({ r with is_favorite := !r.is_favorite } : ImageRow).image_id)
          = true := by
      rw [hsnd]
      simpa [hid] using htag
    have := entry_of_mem (toggle_favorite_status db imageId false).2
      ({ r with is_favorite := !r.is_favorite }) hr' htag'
    exact ⟨_, this, hid, rfl⟩
  · intro hno
    have hmapid : db.images.map (fun r2 =>
        if r2.image_id == imageId then { r2 with is_favorite := !r2.is_favorite } else r2)
          = db.images := by
      have h1 : ∀ a ∈ db.images, (if a.image_id == imageId then
          ({ a with is_favorite := !a.is_favorite } : ImageRow) else a) = a := by
        intro a ha
        simp [hno a ha]
      rw [List.map_congr_left h1, List.map_id']
    have hfind : db.images.find? (fun r2 => r2.image_id == imageId) = none := by
      rw [List.find?_eq_none]
      intro x hx hpx
      simp only [beq_iff_eq] at hpx
      exact hno x hx hpx
    unfold toggle_favorite_status
    dsimp only
    rw [hmapid, hfind]
    rfl

/-- C9 witness: the amended statement evaluated on a concrete database with
a tagged image (id 1) and an unknown id (7). -/
theorem claim_C9_witness :
    ((toggle_favorite_status dbStale 1 false).1 = true)
  ∧ (∃ e ∈ get_all_indexed_images (toggle_favorite_status dbStale 1 false).2,
      e.image_id = 1 ∧ e.is_favorite = true)
  ∧ toggle_favorite_status dbStale 7 false = (false, dbStale) := by
  have h := (claim_C9_amended dbStale 1 (by decide)).1 ⟨1, "a", "t0", false⟩ (by decide) rfl
  exact ⟨h.1, h.2.2.2 (by decide), (claim_C9_amended dbStale 7 (by decide)).2 (by decide)⟩

/-! ## Lemmas for claim C10 -/

theorem upsertImage_mem (db : DB) (P now : String) :
    ∃ r ∈ (upsertImage db P now).images, r.file_path = P := by
  obtain ⟨row, hrow⟩ := upsertImage_find db P now
  exact ⟨row, List.mem_of_find?_eq_some hrow, by simpa using List.find?_some hrow⟩

theorem upsertImage_tags (db : DB) (P now : String) :
    (upsertImage db P now).tags = db.tags := by
  unfold upsertImage
  by_cases hc : db.images.any (fun r => r.file_path == P) <;> simp [hc]

theorem upsertImage_paths_nodup (db : DB) (P now : String)
    (h : (db.images.map (·.file_path)).Nodup) :
    ((upsertImage db P now).images.map (·.file_path)).Nodup := by
  unfold upsertImage
  by_cases hc : db.images.any (fun r => r.file_path == P)
  · simp only [if_pos hc]
    have heq : (db.images.map (fun r =>
        if r.file_path == P then { r with date_scanned := now } else r)).map (·.file_path)
          = db.images.map (·.file_path) := by
      rw [List.map_map]
      apply List.map_congr_left
      intro a ha
      by_cases hp : a.file_path = P <;> simp [hp]
    rw [heq]
    exact h
  · simp only [if_neg hc]
    rw [List.map_append]
    refine List.Nodup.append h (by simp) ?_
    intro x hx hx2
    simp only [List.map_cons, List.map_nil, List.mem_singleton] at hx2
    subst hx2
    obtain ⟨r, hr, hrp⟩ := List.mem_map.1 hx
    exact hc (List.any_eq_true.2 ⟨r, hr, by simp [hrp]⟩)

theorem save_result_parts (np : String → String) (now : String) (db : DB) (p : String)
    (T : List Tag) :
    (save_tags_to_db np now db p T false).2.images = (upsertImage db (np p) now).images
  ∧ ∃ row, (upsertImage db (np p) now).images.find? (fun r => r.file_path == np p) = some row
      ∧ (save_tags_to_db np now db p T false).2.tags
          = (upsertImage db (np p) now).tags.filter (fun t => t.image_id != row.image_id)
            ++ T.enum.map (fun it => TagRow.mk ((upsertImage db (np p) now).nextTagId + it.1)
                row.image_id it.2.tag_name it.2.score) := by
  obtain ⟨row, hrow⟩ := upsertImage_find db (np p) now
  refine ⟨?_, row, hrow, ?_⟩
  · simp only [save_tags_to_db, Bool.false_eq_true, if_false, hrow]
  · simp only [save_tags_to_db, Bool.false_eq_true, if_false, hrow]

theorem filterImage_path (c : SearchCriteria) (cnTags enTerms : List String) (uInt : Bool)
    (item : ImageEntry) (r : ResultItem)
    (h : filterImage c cnTags enTerms uInt item = some r) : r.path = item.file_path := by
  simp only [filterImage] at h
  repeat' split at h
  all_goals
    first
      | exact Option.noConfusion h
      | (injection h with h2; subst h2; rfl)

theorem wrapper_paths (dict : DictionaryManager) (db : DB) (c : SearchCriteria) (r : ResultItem)
    (h : r ∈ (search_images_wrapper dict db c).1) :
    ∃ e ∈ get_all_indexed_images db, r.path = e.file_path := by
  simp only [search_images_wrapper] at h
  repeat' split at h
  all_goals
    first
      | exact absurd h (List.not_mem_nil r)
      | (obtain ⟨item, hitem, hf⟩ := List.mem_filterMap.1 h
         exact ⟨item, hitem, filterImage_path _ _ _ _ _ _ hf⟩)

/-! ## Claim C10 -/

/-- C10: a successful `saveTags(path, [])` call still creates the image
record — the normalized path appears in `listIndexedPaths()` afterwards —
but because `listAllImages` inner-joins images with tag assignments, an
image with zero tag assignments never appears in `listAllImages()` and
hence in no retrieval result. -/
theorem claim_C10 (np : String → String) (now : String) (db : DB) (p : String)
    (hwf : db.WF) (hnp : np (np p) = np p) :
    (save_tags_to_db np now db p [] false).1 = true
  ∧ np p ∈ get_all_indexed_file_paths np (save_tags_to_db np now db p [] false).2
  ∧ (∀ e ∈ get_all_indexed_images (save_tags_to_db np now db p [] false).2,
      e.file_path ≠ np p)
  ∧ (∀ dict c, ∀ r ∈ (search_images_wrapper dict (save_tags_to_db np now db p [] false).2 c).1,
      r.path ≠ np p) := by
  obtain ⟨himg, row, hrow, htags⟩ := save_result_parts np now db p []
  simp only [List.enum_nil, List.map_nil, List.append_nil] at htags
  have hfst : (save_tags_to_db np now db p [] false).1 = true := by
    simp only [save_tags_to_db, Bool.false_eq_true, if_false, hrow]
  have hmem : np p ∈ get_all_indexed_file_paths np (save_tags_to_db np now db p [] false).2 := by
    obtain ⟨r, hr, hrp⟩ := upsertImage_mem db (np p) now
    unfold get_all_indexed_file_paths
    rw [himg]
    exact List.mem_dedup.2 (List.mem_map.2 ⟨r, hr, by rw [hrp, hnp]⟩)
  have hnoentry : ∀ e ∈ get_all_indexed_images (save_tags_to_db np now db p [] false).2,
      e.file_path ≠ np p := by
    intro e he hpath
    unfold get_all_indexed_images at he
    obtain ⟨r, hrs, hfr⟩ := List.mem_filterMap.1 he
    have hrmem : r ∈ (save_tags_to_db np now db p [] false).2.images :=
      (mem_insertionSort _ _ _).1 hrs
    by_cases hE : (tagRowsFor (save_tags_to_db np now db p [] false).2 r.image_id).isEmpty
    · simp [hE] at hfr
    · simp only [hE, Bool.false_eq_true, if_false] at hfr
      have hrpath : r.file_path = np p := by
        injection hfr with h2
        rw [← h2] at hpath
        exact hpath
      have hrowmem : row ∈ (upsertImage db (np p) now).images :=
        List.mem_of_find?_eq_some hrow
      have hrowpath : row.file_path = np p := by
        simpa using List.find?_some hrow
      have hnd := upsertImage_paths_nodup db (np p) now hwf.1
      have hrr : r = row := by
        apply eq_of_nodup_map (fun x => x.file_path) _ hnd (himg ▸ hrmem) hrowmem
        rw [hrpath, hrowpath]
      have hempty : tagRowsFor (save_tags_to_db np now db p [] false).2 r.image_id = [] := by
        unfold tagRowsFor
        rw [htags, hrr]
        have hz : ((upsertImage db (np p) now).tags.filter
            (fun t => t.image_id != row.image_id)).filter
              (fun t => t.image_id == row.image_id) = [] := by
          rw [List.filter_eq_nil_iff]
          intro a ha
          rw [List.mem_filter] at ha
          have := ha.2
          simp only [bne_iff_ne, ne_eq] at this
          simp [this]
        rw [hz]
        rfl
      rw [hempty] at hE
      exact hE rfl
  refine ⟨hfst, hmem, hnoentry, ?_⟩
  intro dict c r hrw
  obtain ⟨e, he, hpe⟩ := wrapper_paths dict _ c r hrw
  rw [hpe]
  exact hnoentry e he

/-- C10 witness: the statement evaluated on a concrete database, with
`normpath` instantiated to the identity. -/
theorem claim_C10_witness :
    (save_tags_to_db id "t1" dbStale "a" [] false).1 = true
  ∧ "a" ∈ get_all_indexed_file_paths id (save_tags_to_db id "t1" dbStale "a" [] false).2
  ∧ (∀ e ∈ get_all_indexed_images (save_tags_to_db id "t1" dbStale "a" [] false).2,
      e.file_path ≠ "a")
  ∧ (∀ dict c, ∀ r ∈ (search_images_wrapper dict
        (save_tags_to_db id "t1" dbStale "a" [] false).2 c).1, r.path ≠ "a") :=
  claim_C10 id "t1" dbStale "a" (by decide) rfl

/-! ## Lemmas about the dictionary maps -/

theorem dictGet_dictInsert (m : List (String × String)) (k v k' : String) :
    dictGet (dictInsert m k v) k' = if k' = k then some v else dictGet m k' := by
  unfold dictInsert dictGet
  by_cases hk : k' = k
  · subst hk
    by_cases hany : m.any (fun e => e.1 == k')
    · simp only [if_pos hany, if_pos rfl]
      rw [find?_map_pres _ _ _ (by
        intro e
        by_cases he : e.1 = k' <;> simp [he])]
      have hs : ((m.find? (fun e => e.1 == k')).isSome) = true := by
        rw [List.find?_isSome]
        exact List.any_eq_true.1 hany
      obtain ⟨e0, he0⟩ := Option.isSome_iff_exists.1 hs
      have hp0 := List.find?_some he0
      rw [he0]
      simp only [beq_iff_eq] at hp0
      simp [hp0]
    · simp only [if_neg hany, if_pos rfl]
      rw [List.find?_append]
      have hn : m.find? (fun e => e.1 == k') = none := by
        rw [List.find?_eq_none]
        intro x hx hpx
        exact hany (List.any_eq_true.2 ⟨x, hx, hpx⟩)
      rw [hn]
      simp [List.find?_cons]
  · by_cases hany : m.any (fun e => e.1 == k)
    · simp only [if_pos hany, if_neg hk]
      rw [find?_map_pres _ _ _ (by
        intro e
        by_cases he : e.1 = k
        · simp [he, beq_iff_eq]
        · simp [he])]
      cases hf : m.find? (fun e => e.1 == k') with
      | none => rfl
      | some e0 =>
          have hp0 := List.find?_some hf
          simp only [beq_iff_eq] at hp0
          have hne : e0.1 ≠ k := by rw [hp0]; exact hk
          simp [hne]
    · simp only [if_neg hany, if_neg hk]
      rw [List.find?_append]
      cases hf : m.find? (fun e => e.1 == k') with
      | some e0 => simp [hf]
      | none =>
          simp only [hf, Option.none_or]
          have : ((k, v).1 == k') = false := by
            simp [beq_iff_eq]
            intro hkk
            exact hk hkk.symm
          simp [List.find?_cons, this]

theorem dictGet_foldl (key val : String × String → String) (rows : List (String × String))
    (m : List (String × String)) (k : String) :
    dictGet (rows.foldl (fun acc e => dictInsert acc (key e) (val e)) m) k
      = ((rows.reverse.find? (fun e => key e == k)).map val).or (dictGet m k) := by
  induction rows generalizing m with
  | nil => simp
  | cons e rest ih =>
      simp only [List.foldl_cons, List.reverse_cons, List.find?_append]
      rw [ih]
      cases hf : rest.reverse.find? (fun e2 => key e2 == k) with
      | some x => simp [hf]
      | none =>
          simp only [hf, Option.none_or, Option.map_none]
          rw [dictGet_dictInsert]
          by_cases hpe : key e = k
          · simp [List.find?_cons, hpe]
          · have hb : (key e == k) = false := by simp [hpe]
            have hpe2 : ¬ k = key e := fun hh => hpe hh.symm
            simp [List.find?_cons, hb, hpe2]

theorem cn_to_en_get (raw : List (Option String × Option String)) (k : String) :
    dictGet (load_dictionary raw).cn_to_en k
      = ((cleanRows raw).reverse.find? (fun e => e.2 == k)).map (·.1) := by
  unfold load_dictionary
  rw [dictGet_foldl (fun e => e.2) (fun e => e.1)]
  simp [dictGet]

theorem en_to_cn_get (raw : List (Option String × Option String)) (k : String) :
    dictGet (load_dictionary raw).en_to_cn k
      = ((cleanRows raw).reverse.find? (fun e => e.1 == k)).map (·.2) := by
  unfold load_dictionary
  rw [dictGet_foldl (fun e => e.1) (fun e => e.2)]
  simp [dictGet]

/-! ## Claim C7 -/

/-- C7 counterexample: loading two rows that map the same term `x` to the
tags `a` and then `b` leaves `resolveToSourceTags(["x"]) = {"b"}`, so the
loaded entry (`x`, `a`) does not round-trip as the claim states for every
loaded entry. -/
theorem claim_C7_counterexample :
    (("a", "x") ∈ cleanRows rawDup)
  ∧ get_search_tags_from_cn_list (load_dictionary rawDup) ["x"] = ["b"]
  ∧ ¬ get_search_tags_from_cn_list (load_dictionary rawDup) ["x"] = ["a"] := by
  decide

/-- C7 (amended): every loaded entry's term is a known term; lookups in both
directions return the value of the last-loaded row for the key (so each
direction yields at most one counterpart, with the last-loaded entry winning
on duplicate keys); and every loaded entry (term, tag) with a non-empty tag
that is the last-loaded row for both its term and its tag round-trips:
`translateTagToTerm(tag) = term` and `resolveToSourceTags([term]) = {tag}`
and `isKnownTerm(term)`. -/
theorem claim_C7_amended (raw : List (Option String × Option String)) :
    (∀ e ∈ cleanRows raw, is_cn_tag (load_dictionary raw) e.2 = true)
  ∧ (∀ k, dictGet (load_dictionary raw).cn_to_en k
        = ((cleanRows raw).reverse.find? (fun e => e.2 == k)).map (·.1))
  ∧ (∀ k, dictGet (load_dictionary raw).en_to_cn k
        = ((cleanRows raw).reverse.find? (fun e => e.1 == k)).map (·.2))
  ∧ (∀ e ∈ cleanRows raw, e.1 ≠ "" →
       (cleanRows raw).reverse.find? (fun x => x.2 == e.2) = some e →
       (cleanRows raw).reverse.find? (fun x => x.1 == e.1) = some e →
         lookup_en_to_cn (load_dictionary raw) e.1 = some e.2
       ∧ get_search_tags_from_cn_list (load_dictionary raw) [e.2] = [e.1]
       ∧ is_cn_tag (load_dictionary raw) e.2 = true) := by
  have hknown : ∀ e ∈ cleanRows raw, is_cn_tag (load_dictionary raw) e.2 = true := by
    intro e he
    unfold is_cn_tag
    rw [cn_to_en_get]
    have hs : (((cleanRows raw).reverse.find? (fun x => x.2 == e.2)).isSome) = true := by
      rw [List.find?_isSome]
      exact ⟨e, List.mem_reverse.2 he, by simp⟩
    cases hf : ((cleanRows raw).reverse.find? (fun x => x.2 == e.2)) with
    | none =>
        rw [List.find?_eq_none] at hf
        exact absurd (by simp) (hf e (List.mem_reverse.2 he))
    | some x => rfl
  refine ⟨hknown, cn_to_en_get raw, en_to_cn_get raw, ?_⟩
  intro e he hne h2 h1
  refine ⟨?_, ?_, hknown e he⟩
  · unfold lookup_en_to_cn
    rw [en_to_cn_get, h1]
    rfl
  · unfold get_search_tags_from_cn_list
    simp only [List.foldl_cons, List.foldl_nil]
    rw [cn_to_en_get, h2]
    have hbne : (e.1 != "") = true := by simpa using hne
    simp [hbne]

/-- C7 witness: the round-trip on the concrete single-entry dictionary
(`mao` ↔ `cat`). -/
theorem claim_C7_witness :
    lookup_en_to_cn (load_dictionary rawCat) "cat" = some "mao"
  ∧ get_search_tags_from_cn_list (load_dictionary rawCat) ["mao"] = ["cat"]
  ∧ is_cn_tag (load_dictionary rawCat) "mao" = true :=
  (claim_C7_amended rawCat).2.2.2 ("cat", "mao") (by decide) (by decide) (by decide) (by decide)

/-! ## Lemmas for claim C4 -/

theorem scanLoop_processed (np : String → String) (tg : String → Option (List Tag))
    (fs : String → Bool) (now folder : String) (total : Nat) :
    ∀ (files : List String) (k : Nat) (db : DB),
      (scanLoop np tg fs now folder total files k db).1.map (·.files_processed)
        = (List.range files.length).map (fun j => k + j + 1) := by
  intro files
  induction files with
  | nil => intro k db; rfl
  | cons f rest ih =>
      intro k db
      simp only [scanLoop, List.map_cons, List.length_cons]
      rw [List.range_succ_eq_map, List.map_cons, List.map_map]
      congr 1
      rw [ih]
      apply List.map_congr_left
      intro j hj
      simp only [Function.comp]
      omega

theorem chainSeq (k n fin : Nat) (h : k + n ≤ fin) :
    List.Chain' (· ≤ ·) ((k :: (List.range n).map (fun j => k + j + 1)) ++ [fin]) := by
  induction n generalizing k with
  | zero =>
      simp only [List.range_zero, List.map_nil, List.cons_append, List.nil_append]
      exact List.chain'_cons.2 ⟨by omega, List.chain'_singleton fin⟩
  | succ n ih =>
      rw [List.range_succ_eq_map, List.map_cons, List.map_map]
      have harith : ((fun j => k + j + 1) ∘ Nat.succ) = (fun j => (k + 1) + j + 1) := by
        funext j
        simp only [Function.comp]
        omega
      rw [harith]
      simp only [List.cons_append]
      refine List.chain'_cons.2 ⟨by omega, ?_⟩
      have := ih (k + 1) (by omega)
      simpa [List.cons_append] using this

theorem skip_count (all indexed : List String) (hnd : indexed.Nodup)
    (hsub : ∀ pa ∈ indexed, pa ∈ all) :
    indexed.length + (all.filter (fun pa => !(indexed.contains pa))).length ≤ all.length := by
  have h1 : all.length = (all.filter (fun pa => indexed.contains pa)).length
      + (all.filter (fun pa => !(indexed.contains pa))).length :=
    List.length_eq_length_filter_add _
  have h2 : indexed.length ≤ (all.filter (fun pa => indexed.contains pa)).length := by
    have hsubf : indexed.toFinset ⊆ (all.filter (fun pa => indexed.contains pa)).toFinset := by
      intro x hx
      rw [List.mem_toFinset] at hx ⊢
      rw [List.mem_filter]
      exact ⟨hsub x hx, by simpa using hx⟩
    calc indexed.length = indexed.toFinset.card := (List.toFinset_card_of_nodup hnd).symm
      _ ≤ (all.filter (fun pa => indexed.contains pa)).toFinset.card := Finset.card_le_card hsubf
      _ ≤ (all.filter (fun pa => indexed.contains pa)).length := List.toFinset_card_le _
  omega

/-! ## Claim C4 -/

/-- C4 counterexample: with a stale indexed path (`a`, counted into the
seeded `files_processed` but absent from the folder), the observable
`files_processed` sequence of a non-forced scan is `0, 1, 2, 1` — it exceeds
`total_files = 1` during the loop and is forced back down to `1` at the end,
so it is not monotonically non-decreasing. -/
theorem claim_C4_counterexample :
    ((start_scan id tgNone fsNone "t" "f" true walkB false dbStale idleStatus).1.map
        (·.files_processed)) = [0, 1, 2, 1]
  ∧ ¬ List.Chain' (· ≤ ·) ([0, 1, 2, 1] : List Nat) := by
  refine ⟨by decide, ?_⟩
  intro hchain
  rw [List.chain'_cons] at hchain
  rw [List.chain'_cons] at hchain
  rw [List.chain'_cons] at hchain
  omega

/-- C4 (amended): provided the scan is forced or every path of the
`listIndexedPaths()` set is among the discovered files (no stale index
entries), the observable `files_processed` sequence of a scan is
monotonically non-decreasing; unconditionally, the terminal status is Idle
with `files_processed = total_files` and `progress_percent = 100` when
`total_files > 0`, else both `0`. -/
theorem claim_C4_amended (np : String → String) (tagger : String → Option (List Tag))
    (failSave : String → Bool) (now folder : String) (isDir : Bool)
    (walk : List (String × String)) (force : Bool) (db : DB) (s0 : ScanStatus)
    (h0 : s0.is_scanning = false) :
    ((force = true
        ∨ ∀ pa ∈ get_all_indexed_file_paths np db, pa ∈ all_files_in_folder np walk) →
      List.Chain' (· ≤ ·)
        ((start_scan np tagger failSave now folder isDir walk force db s0).1.map
          (·.files_processed)))
  ∧ ∀ s, ((start_scan np tagger failSave now folder isDir walk force db s0).1.getLast?
        = some s) →
      s.is_scanning = false
    ∧ (0 < s.total_files → s.files_processed = s.total_files ∧ s.progress_percent = 100)
    ∧ (s.total_files = 0 → s.files_processed = 0 ∧ s.progress_percent = 0) := by
  by_cases hd : isDir
  case neg =>
    rw [Bool.not_eq_true] at hd
    subst hd
    unfold start_scan
    simp only [h0, Bool.false_eq_true, if_false, Bool.not_false, if_true]
    constructor
    · intro _
      simp [List.chain'_cons]
    · intro s hs
      simp only [List.getLast?_cons_cons, List.getLast?_singleton, Option.some.injEq] at hs
      subst hs
      simp
  case pos =>
    subst hd
    unfold start_scan
    simp only [h0, Bool.false_eq_true, if_false, Bool.not_true]
    have hmono : ∀ (total seed p : Nat) (toScan : List String) (db2 : DB),
        seed + toScan.length ≤ total →
        List.Chain' (· ≤ ·)
          ((((⟨true, 0, 0, 0, folder⟩ : ScanStatus)
              :: (⟨true, total, seed, p, folder⟩ : ScanStatus)
              :: (scanLoop np tagger failSave now folder total toScan seed db2).1)
            ++ [if total > 0 then (⟨false, total, total, 100, folder⟩ : ScanStatus)
                else ⟨false, total, 0, 0, folder⟩]).map (·.files_processed)) := by
      intro total seed p toScan db2 h
      simp only [List.map_append, List.map_cons, List.map_nil,
        apply_ite (fun s : ScanStatus => s.files_processed)]
      rw [scanLoop_processed]
      simp only [List.cons_append]
      refine List.chain'_cons.2 ⟨by omega, ?_⟩
      have hfin2 : seed + toScan.length ≤ (if total > 0 then total else 0) := by
        by_cases htot : total > 0
        · simpa [htot] using h
        · have hz : total = 0 := by omega
          rw [if_neg htot]
          omega
      have := chainSeq seed toScan.length (if total > 0 then total else 0) hfin2
      simpa [List.cons_append] using this
    have hterm : ∀ (l : List ScanStatus) (total : Nat), ∀ s,
        ((l ++ [if total > 0 then (⟨false, total, total, 100, folder⟩ : ScanStatus)
            else ⟨false, total, 0, 0, folder⟩]).getLast? = some s) →
          s.is_scanning = false
        ∧ (0 < s.total_files → s.files_processed = s.total_files ∧ s.progress_percent = 100)
        ∧ (s.total_files = 0 → s.files_processed = 0 ∧ s.progress_percent = 0) := by
      intro l total s hs
      rw [List.getLast?_append] at hs
      by_cases htot : total > 0
      · rw [if_pos htot] at hs
        simp at hs
        subst hs
        exact ⟨rfl, fun _ => ⟨rfl, rfl⟩, fun hz => absurd (show total = 0 from hz) (by omega)⟩
      · rw [if_neg htot] at hs
        simp at hs
        subst hs
        exact ⟨rfl, fun hpos => absurd (show 0 < total from hpos) (by omega),
          fun _ => ⟨rfl, rfl⟩⟩
    refine ⟨fun hcov => ?_, hterm _ _⟩
    apply hmono
    by_cases hforce : force
    · subst hforce
      have hn : (files_to_scan np walk true []).length
          = (all_files_in_folder np walk).length := by
        unfold files_to_scan
        simp
      simp [hn]
    · rw [Bool.not_eq_true] at hforce
      subst hforce
      have hsub : ∀ pa ∈ get_all_indexed_file_paths np db, pa ∈ all_files_in_folder np walk := by
        rcases hcov with hcov | hcov
        · exact absurd hcov (by simp)
        · exact hcov
      have := skip_count (all_files_in_folder np walk) (get_all_indexed_file_paths np db)
        (List.nodup_dedup _) hsub
      simp only [Bool.false_eq_true, if_false]
      unfold files_to_scan
      simpa using this

/-- C4 witness: the amended statement evaluated concretely.  On a scan whose
indexed path is among the discovered files the observable sequence is
`0, 1, 2, 2` with an Idle full-progress terminal status; and on the stale
non-forced scan (the counterexample's own scenario) the unconditional
terminal-status conjunct still yields full progress for the final status
`⟨false, 1, 1, 100, "f"⟩`. -/
theorem claim_C4_witness :
    List.Chain' (· ≤ ·)
      ((start_scan id tgNone fsNone "t" "f" true walkAB false dbIndexedA idleStatus).1.map
        (·.files_processed))
  ∧ ((start_scan id tgNone fsNone "t" "f" true walkAB false dbIndexedA idleStatus).1.getLast?
      = some ⟨false, 2, 2, 100, "f"⟩)
  ∧ ((⟨false, 1, 1, 100, "f"⟩ : ScanStatus).is_scanning = false
    ∧ (0 < (⟨false, 1, 1, 100, "f"⟩ : ScanStatus).total_files →
        (⟨false, 1, 1, 100, "f"⟩ : ScanStatus).files_processed
            = (⟨false, 1, 1, 100, "f"⟩ : ScanStatus).total_files
        ∧ (⟨false, 1, 1, 100, "f"⟩ : ScanStatus).progress_percent = 100)
    ∧ ((⟨false, 1, 1, 100, "f"⟩ : ScanStatus).total_files = 0 →
        (⟨false, 1, 1, 100, "f"⟩ : ScanStatus).files_processed = 0
        ∧ (⟨false, 1, 1, 100, "f"⟩ : ScanStatus).progress_percent = 0)) :=
  ⟨(claim_C4_amended id tgNone fsNone "t" "f" true walkAB false dbIndexedA idleStatus rfl).1
      (Or.inr (by decide)), by decide,
   (claim_C4_amended id tgNone fsNone "t" "f" true walkB false dbStale idleStatus rfl).2
      ⟨false, 1, 1, 100, "f"⟩ (by decide)⟩

/-! ## Lemmas for claims C5 and C6 -/

theorem any_eq_not_isEmpty_filter {α : Type} (p : α → Bool) (l : List α) :
    l.any p = !(l.filter p).isEmpty := by
  induction l with
  | nil => rfl
  | cons a as ih => by_cases h : p a <;> simp [List.filter_cons, h, ih]

theorem filterMap_showAll (c : SearchCriteria) (l : List ImageEntry)
    (hfav : c.showFavorites = false) (hfn : fileNameQuery c = "") :
    l.filterMap (filterImage c [] [] false)
      = (l.filter (fun it => !(it.tags.filter (tagInRange c)).isEmpty)).map
          (fun it => ⟨it.file_path, (it.tags.filter (tagInRange c)).take 5⟩) := by
  induction l with
  | nil => rfl
  | cons it its ih =>
      have h1 : filterImage c [] [] false it
          = if (it.tags.filter (tagInRange c)).isEmpty then none
            else some ⟨it.file_path, (it.tags.filter (tagInRange c)).take 5⟩ := by
        unfold filterImage
        rw [hfav, hfn]
        simp
      by_cases hE : (it.tags.filter (tagInRange c)).isEmpty = true
      · simp [List.filterMap_cons, List.filter_cons, h1, hE, ih]
      · simp [List.filterMap_cons, List.filter_cons, h1, hE, ih]

theorem filterMap_fnFav (c : SearchCriteria) (l : List ImageEntry) :
    l.filterMap (filterImage c [] [] true)
      = (l.filter (fun it => (!c.showFavorites || it.is_favorite)
            && (fileNameQuery c == "" || containsSub (strLower it.file_path)
                  (fileNameQuery c)))).map
          (fun it => ⟨it.file_path, it.tags.take 5⟩) := by
  induction l with
  | nil => rfl
  | cons it its ih =>
      have h1 : filterImage c [] [] true it
          = if (!c.showFavorites || it.is_favorite)
                && (fileNameQuery c == "" || containsSub (strLower it.file_path)
                      (fileNameQuery c))
            then some ⟨it.file_path, it.tags.take 5⟩ else none := by
        unfold filterImage
        by_cases hfav : (c.showFavorites && !it.is_favorite) = true
        · have hc1 : (!c.showFavorites || it.is_favorite) = false := by
            cases hcs : c.showFavorites <;> cases hif : it.is_favorite <;> simp_all
          simp [hfav, hc1]
        · by_cases hfn : (fileNameQuery c != ""
              && !(containsSub (strLower it.file_path) (fileNameQuery c))) = true
          · have hc2 : (fileNameQuery c == ""
                || containsSub (strLower it.file_path) (fileNameQuery c)) = false := by
              cases hq : (fileNameQuery c == "") <;>
                cases hcss : containsSub (strLower it.file_path) (fileNameQuery c) <;> simp_all
            have hc1 : ((!c.showFavorites || it.is_favorite) && (fileNameQuery c == ""
                || containsSub (strLower it.file_path) (fileNameQuery c))) = false := by
              rw [hc2]
              simp
            simp [hfav, hfn, hc1]
          · have hc1 : (!c.showFavorites || it.is_favorite) = true := by
              cases hcs : c.showFavorites <;> cases hif : it.is_favorite <;> simp_all
            have hc2 : (fileNameQuery c == ""
                || containsSub (strLower it.file_path) (fileNameQuery c)) = true := by
              cases hq : (fileNameQuery c == "") <;>
                cases hcss : containsSub (strLower it.file_path) (fileNameQuery c) <;> simp_all
            simp [hfav, hfn, hc1, hc2]
      by_cases hc : ((!c.showFavorites || it.is_favorite)
          && (fileNameQuery c == "" || containsSub (strLower it.file_path)
                (fileNameQuery c))) = true
      · simp [List.filterMap_cons, List.filter_cons, h1, hc, ih]
      · simp [List.filterMap_cons, List.filter_cons, h1, hc, ih]

theorem filterImage_shown_le (c : SearchCriteria) (uInt : Bool) (item : ImageEntry)
    (r : ResultItem) (h : filterImage c [] [] uInt item = some r) : r.shown.length ≤ 5 := by
  simp only [filterImage, List.isEmpty_nil, Bool.and_self] at h
  repeat' split at h
  all_goals
    first
      | exact Option.noConfusion h
      | exact absurd trivial (by assumption)
      | (injection h with h2
         subst h2
         rw [List.length_take]
         omega)

theorem wrapper_showAll_eq (dict : DictionaryManager) (db : DB) (c : SearchCriteria)
    (h1 : resolvedTags dict db c = []) (h2 : fuzzyTerms c = [])
    (hui : userIntended c = false) (hfav : c.showFavorites = false)
    (hfn : fileNameQuery c = "") :
    (search_images_wrapper dict db c).1.map (·.path)
      = ((get_all_indexed_images db).filter (fun it => it.tags.any (tagInRange c))).map
          (·.file_path) := by
  have hfc : (get_all_indexed_images db).filter (fun it => it.tags.any (tagInRange c))
      = (get_all_indexed_images db).filter
          (fun it => !(it.tags.filter (tagInRange c)).isEmpty) :=
    List.filter_congr (fun a _ => any_eq_not_isEmpty_filter _ _)
  unfold search_images_wrapper
  rw [h1, h2]
  simp only [hui, Bool.false_and, Bool.and_false, Bool.false_eq_true, if_false]
  by_cases hemp : (get_all_indexed_images db).isEmpty = true
  · rw [List.isEmpty_iff.1 hemp]
    simp
  · simp only [hemp, Bool.false_eq_true, if_false]
    rw [filterMap_showAll c _ hfav hfn, hfc, List.map_map]
    rfl

theorem wrapper_fnFav_eq (dict : DictionaryManager) (db : DB) (c : SearchCriteria)
    (h1 : resolvedTags dict db c = []) (h2 : fuzzyTerms c = [])
    (hui : userIntended c = true)
    (hor : c.showFavorites = true ∨ fileNameQuery c ≠ "") :
    (search_images_wrapper dict db c).1.map (·.path)
      = ((get_all_indexed_images db).filter
          (fun it => (!c.showFavorites || it.is_favorite)
            && (fileNameQuery c == "" || containsSub (strLower it.file_path)
                  (fileNameQuery c)))).map (·.file_path) := by
  have hguard : (userIntended c && (resolvedTags dict db c).isEmpty && (fuzzyTerms c).isEmpty
      && (fileNameQuery c == "") && !c.showFavorites) = false := by
    rcases hor with hf | hf
    · simp [hf]
    · simp [hf]
  unfold search_images_wrapper
  simp only [hguard, Bool.false_eq_true, if_false]
  by_cases hemp : (get_all_indexed_images db).isEmpty = true
  · rw [List.isEmpty_iff.1 hemp]
    simp
  · simp only [hemp, Bool.false_eq_true, if_false]
    rw [h1, h2, hui, filterMap_fnFav c _, List.map_map]
    rfl

/-! ## Claim C5 -/

/-- C5: a search where the user supplied input but tag resolution yields
nothing, the fuzzy field parses to no tokens and no filename/favorites
filter is set returns an empty list with the distinct "no tags found"
message; an entirely empty query returns exactly the images having at least
one tag with score in `[min, max]`. -/
theorem claim_C5 (dict : DictionaryManager) (db : DB) :
    (∀ c : SearchCriteria,
       userIntended c = true →
       resolvedTags dict db c = [] →
       fuzzyTerms c = [] →
       fileNameQuery c = "" →
       c.showFavorites = false →
       search_images_wrapper dict db c = ([], SearchMsg.noTagsFound (strTrim c.cnInput)))
  ∧ (∀ c : SearchCriteria,
       strTrim c.cnInput = "" →
       selectedVal c = "" →
       strLower (strTrim c.enInput) = "" →
       fileNameQuery c = "" →
       c.showFavorites = false →
       (search_images_wrapper dict db c).1.map (·.path)
         = ((get_all_indexed_images db).filter
              (fun it => it.tags.any (tagInRange c))).map (·.file_path)) := by
  constructor
  · intro c h1 h2 h3 h4 h5
    unfold search_images_wrapper
    rw [h2, h3, h4]
    simp [h1, h5]
  · intro c hcn hsel hen hfn hfav
    have hfn2 : strLower (strTrim c.fileInput) = "" := hfn
    have hui : userIntended c = false := by
      unfold userIntended
      rw [hcn, hsel, hen, hfn2, hfav]
      simp
    have hres : resolvedTags dict db c = [] := by
      unfold resolvedTags cnTermsToSearch
      rw [hcn, hsel]
      simp [get_search_tags_from_cn_list]
    have hfz : fuzzyTerms c = [] := by
      unfold fuzzyTerms
      rw [hen]
      simp
    exact wrapper_showAll_eq dict db c hres hfz hui hfav hfn

/-- C5 witness: the two parts evaluated on a concrete corpus: the query
`zzz` resolves to nothing and yields the empty result with the "no tags
found" message, while the empty query lists exactly the in-range images. -/
theorem claim_C5_witness :
    search_images_wrapper dict0 dbFav cNoHit = ([], SearchMsg.noTagsFound "zzz")
  ∧ (search_images_wrapper dict0 dbFav cShowAll).1.map (·.path)
      = ((get_all_indexed_images dbFav).filter
          (fun it => it.tags.any (tagInRange cShowAll))).map (·.file_path) :=
  ⟨(claim_C5 dict0 dbFav).1 cNoHit (by decide) (by decide) (by decide) (by decide) rfl,
   (claim_C5 dict0 dbFav).2 cShowAll rfl rfl rfl rfl rfl⟩

/-! ## Claim C6 -/

/-- C6 counterexample: with no resolved tags and no fuzzy tokens, a
favorites-only search keeps a favourited image even though none of its tags
has a score in `[min, max]` — the claimed "kept iff at least one tag in
range" fails for pure filename/favorites queries. -/
theorem claim_C6_counterexample :
    ((search_images_wrapper dict0 dbFav cFav).1.map (·.path) = ["p"])
  ∧ ((get_all_indexed_images dbFav).all (fun it => !(it.tags.any (tagInRange cFav)))) = true := by
  decide

/-- C6 (amended): for a search with no resolved tags and no fuzzy tokens,
every result is annotated with at most 5 tags; when the user typed nothing
at all an image is kept iff it has at least one tag with score in
`[min, max]`; when a filename or favorites filter is set, images passing
those filters are kept regardless of score range (an all-empty criteria
combination with the favorites box unchecked is the definite-empty case and
returns nothing). -/
theorem claim_C6_amended (dict : DictionaryManager) (db : DB) (c : SearchCriteria)
    (h1 : resolvedTags dict db c = []) (h2 : fuzzyTerms c = []) :
    (∀ r ∈ (search_images_wrapper dict db c).1, r.shown.length ≤ 5)
  ∧ (userIntended c = false →
      (search_images_wrapper dict db c).1.map (·.path)
        = ((get_all_indexed_images db).filter
            (fun it => it.tags.any (tagInRange c))).map (·.file_path))
  ∧ (userIntended c = true → c.showFavorites = false → fileNameQuery c = "" →
      (search_images_wrapper dict db c).1 = [])
  ∧ (userIntended c = true → (c.showFavorites = true ∨ fileNameQuery c ≠ "") →
      (search_images_wrapper dict db c).1.map (·.path)
        = ((get_all_indexed_images db).filter
            (fun it => (!c.showFavorites || it.is_favorite)
              && (fileNameQuery c == "" || containsSub (strLower it.file_path)
                    (fileNameQuery c)))).map (·.file_path)) := by
  refine ⟨?_, ?_, ?_, ?_⟩
  · intro r hr
    simp only [search_images_wrapper, h1, h2] at hr
    split at hr
    · exact absurd hr (List.not_mem_nil r)
    · split at hr
      · exact absurd hr (List.not_mem_nil r)
      · obtain ⟨item, hitem, hf⟩ := List.mem_filterMap.1 hr
        exact filterImage_shown_le c _ item r hf
  · intro hui
    have hfav : c.showFavorites = false := by
      cases hsf : c.showFavorites
      · rfl
      · unfold userIntended at hui
        rw [hsf] at hui
        simp at hui
    have hfn : fileNameQuery c = "" := by
      by_cases hq : strLower (strTrim c.fileInput) = ""
      · exact hq
      · exfalso
        have hb : (strLower (strTrim c.fileInput) != "") = true := by simp [hq]
        unfold userIntended at hui
        rw [hb] at hui
        simp at hui
    exact wrapper_showAll_eq dict db c h1 h2 hui hfav hfn
  · intro hui hfav hfn
    simp [search_images_wrapper, h1, h2, hfn, hui, hfav]
  · intro hui hor
    exact wrapper_fnFav_eq dict db c h1 h2 hui hor

/-- C6 witness: the amended statement evaluated on the concrete
favorites-only query over `dbFav`. -/
theorem claim_C6_witness :
    ((⟨"p", [⟨"cat", 0⟩]⟩ : ResultItem).shown.length ≤ 5)
  ∧ ((search_images_wrapper dict0 dbFav cFav).1.map (·.path)
      = ((get_all_indexed_images dbFav).filter
          (fun it => (!cFav.showFavorites || it.is_favorite)
            && (fileNameQuery cFav == "" || containsSub (strLower it.file_path)
                  (fileNameQuery cFav)))).map (·.file_path)) :=
  ⟨(claim_C6_amended dict0 dbFav cFav (by decide) rfl).1 ⟨"p", [⟨"cat", 0⟩]⟩ (by decide),
   (claim_C6_amended dict0 dbFav cFav (by decide) rfl).2.2.2 (by decide) (Or.inl rfl)⟩
